import Mathlib

/-!
Verification of the Valora demo dashboard (`valora_streamlit.py`).

The development shallowly embeds the pieces of the program that the
specification talks about:

* the Python string manipulation used by `parse_json_safe`
  (`str.strip`, `str.startswith`, `str.splitlines`, `"\n".join`,
  `str.find` / `str.rfind` and slicing with Python's negative-index
  semantics);
* a JSON value type and a recursive-descent parser modelling the
  behaviour of Python's `json.loads` on ordinary JSON documents;
* the tolerant extractor `parse_json_safe`;
* the credential lookup of `call_openai_chat`;
* the local (demo-mode) report computation and the canned
  `DEMO_RESULTS` entry.  Python float arithmetic is modelled by exact
  rational arithmetic, and Python's `round` (banker's rounding) by
  `pyRound` below.
-/

/-! ### Python string primitives -/

/-- Whitespace characters stripped by Python's `str.strip()` (the ASCII
ones, which are the only ones arising here). -/
def isPyWs (c : Char) : Bool :=
  c = ' ' || c = '\t' || c = '\n' || c = '\r' || c = '\x0b' || c = '\x0c'

/-- `str.strip()` on the underlying character list. -/
def stripL (l : List Char) : List Char :=
  ((l.dropWhile isPyWs).reverse.dropWhile isPyWs).reverse

/-- `str.strip()`. -/
def pyStrip (s : String) : String := String.mk (stripL s.data)

/-- `str.startswith` on character lists: second argument is the pattern. -/
def pyStartsWith : List Char → List Char → Bool
  | _, [] => true
  | [], _ :: _ => false
  | a :: as, b :: bs => a = b && pyStartsWith as bs

/-- Worker for `str.splitlines`: `cur` is the current line, reversed.
Line boundaries are `\n`, `\r\n` and `\r`; a trailing boundary does not
produce a final empty line. -/
def slGo : List Char → List Char → List String
  | [], cur => if cur.isEmpty then [] else [String.mk cur.reverse]
  | '\r' :: '\n' :: rest, cur => String.mk cur.reverse :: slGo rest []
  | '\r' :: rest, cur => String.mk cur.reverse :: slGo rest []
  | '\n' :: rest, cur => String.mk cur.reverse :: slGo rest []
  | c :: rest, cur => slGo rest (c :: cur)

/-- `str.splitlines()`. -/
def pySplitlines (s : String) : List String := slGo s.data []

/-- `"\n".join(...)`. -/
def pyJoinNl : List String → String
  | [] => ""
  | x :: xs => xs.foldl (fun acc y => acc ++ "\n" ++ y) x

/-- Index of the first occurrence of a character (`str.find`, as an
`Option` instead of `-1`). -/
def firstIdxCh : List Char → Char → Option Nat
  | [], _ => none
  | c :: rest, t => if c = t then some 0 else (firstIdxCh rest t).map (· + 1)

/-- Index of the last occurrence of a character (`str.rfind`, as an
`Option` instead of `-1`). -/
def lastIdxCh (l : List Char) (t : Char) : Option Nat :=
  (firstIdxCh l.reverse t).map (fun i => l.length - 1 - i)

/-- Normalisation of one slice bound, following Python semantics: a
negative index counts from the end (clamped at 0), a non-negative one is
clamped at the length. -/
def pyIdx (n : Nat) (i : Int) : Nat :=
  if i < 0 then (i + n).toNat else min i.toNat n

/-- Python slicing `l[a:b]`. -/
def pySliceL (l : List Char) (a b : Int) : List Char :=
  (l.drop (pyIdx l.length a)).take (pyIdx l.length b - pyIdx l.length a)

/-! ### JSON values and a model of `json.loads` -/

/-- JSON values.  Numbers are modelled as exact rationals (Python floats
are not distinguished here). -/
inductive Json where
  | null : Json
  | bool (b : Bool) : Json
  | num (q : ℚ) : Json
  | str (s : String) : Json
  | arr (xs : List Json) : Json
  | obj (kvs : List (String × Json)) : Json

/-- JSON insignificant whitespace. -/
def skipWs : List Char → List Char
  | [] => []
  | c :: rest =>
    if c = ' ' || c = '\t' || c = '\n' || c = '\r' then skipWs rest else c :: rest

/-- Value of a hexadecimal digit. -/
def hexVal (c : Char) : Option Nat :=
  if '0' ≤ c ∧ c ≤ '9' then some (c.toNat - '0'.toNat)
  else if 'a' ≤ c ∧ c ≤ 'f' then some (c.toNat - 'a'.toNat + 10)
  else if 'A' ≤ c ∧ c ≤ 'F' then some (c.toNat - 'A'.toNat + 10)
  else none

/-- Body of a JSON string after the opening quote; `acc` is the parsed
text, reversed.  Unescaped control characters are rejected, as in
Python's strict mode. -/
def parseStringRest : List Char → List Char → Option (String × List Char)
  | [], _ => none
  | '"' :: rest, acc => some (String.mk acc.reverse, rest)
  | '\\' :: rest, acc =>
    match rest with
    | [] => none
    | e :: rest2 =>
      if e = '"' then parseStringRest rest2 ('"' :: acc)
      else if e = '\\' then parseStringRest rest2 ('\\' :: acc)
      else if e = '/' then parseStringRest rest2 ('/' :: acc)
      else if e = 'b' then parseStringRest rest2 ('\x08' :: acc)
      else if e = 'f' then parseStringRest rest2 ('\x0c' :: acc)
      else if e = 'n' then parseStringRest rest2 ('\n' :: acc)
      else if e = 'r' then parseStringRest rest2 ('\r' :: acc)
      else if e = 't' then parseStringRest rest2 ('\t' :: acc)
      else if e = 'u' then
        match rest2 with
        | h1 :: h2 :: h3 :: h4 :: rest3 =>
          match hexVal h1, hexVal h2, hexVal h3, hexVal h4 with
          | some a, some b, some c, some d =>
            parseStringRest rest3 (Char.ofNat (((a * 16 + b) * 16 + c) * 16 + d) :: acc)
          | _, _, _, _ => none
        | _ => none
      else none
  | c :: rest, acc =>
    if c.toNat < 32 then none else parseStringRest rest (c :: acc)

/-- Digits of a number as a natural. -/
def parseNat (ds : List Char) : Nat :=
  ds.foldl (fun acc c => acc * 10 + (c.toNat - '0'.toNat)) 0

/-- A JSON number literal (sign, integer part without leading zeros,
optional fraction and exponent), as an exact rational. -/
def parseNumber (cs : List Char) : Option (Json × List Char) :=
  let sn : Bool × List Char := match cs with | '-' :: r => (true, r) | _ => (false, cs)
  match sn.2 with
  | [] => none
  | c :: r =>
    if c.isDigit then
      let ip : List Char × List Char :=
        if c = '0' then ([c], r) else List.span Char.isDigit sn.2
      let fracRes : Option (List Char × List Char) :=
        match ip.2 with
        | '.' :: r2 =>
          let ds := List.span Char.isDigit r2
          if ds.1.isEmpty then none else some ds
        | _ => some ([], ip.2)
      match fracRes with
      | none => none
      | some (fracDs, rest2) =>
        let expRes : Option (Int × List Char) :=
          match rest2 with
          | e :: r4 =>
            if e = 'e' ∨ e = 'E' then
              let sr : Bool × List Char :=
                match r4 with
                | '+' :: r6 => (false, r6)
                | '-' :: r6 => (true, r6)
                | _ => (false, r4)
              let eds := List.span Char.isDigit sr.2
              if eds.1.isEmpty then none
              else some ((if sr.1 then -(parseNat eds.1 : Int) else (parseNat eds.1 : Int)), eds.2)
            else some (0, rest2)
          | [] => some (0, rest2)
        match expRes with
        | none => none
        | some (ex, rest3) =>
          let mant : ℚ := (parseNat ip.1 : ℚ) + (parseNat fracDs : ℚ) / (10 : ℚ) ^ fracDs.length
          let signed : ℚ := if sn.1 then -mant else mant
          some (Json.num (signed * (10 : ℚ) ^ ex), rest3)
    else none

/-- Parsing mode: a single value, the items of an array after `[`, or the
members of an object after the opening brace. -/
inductive PMode where
  | val : PMode
  | arrItems : PMode
  | objItems : PMode

/-- Fuel-indexed recursive-descent JSON parser. -/
def parseCore : Nat → PMode → List Char → Option (Json × List Char)
  | 0, _, _ => none
  | Nat.succ fuel, PMode.val, cs =>
    match skipWs cs with
    | 'n' :: 'u' :: 'l' :: 'l' :: rest => some (Json.null, rest)
    | 't' :: 'r' :: 'u' :: 'e' :: rest => some (Json.bool true, rest)
    | 'f' :: 'a' :: 'l' :: 's' :: 'e' :: rest => some (Json.bool false, rest)
    | '"' :: rest => (parseStringRest rest []).map (fun p => (Json.str p.1, p.2))
    | '\x7b' :: rest =>
      (match skipWs rest with
       | '\x7d' :: r => some (Json.obj [], r)
       | other => parseCore fuel PMode.objItems other)
    | '[' :: rest =>
      (match skipWs rest with
       | ']' :: r => some (Json.arr [], r)
       | other => parseCore fuel PMode.arrItems other)
    | other => parseNumber other
  | Nat.succ fuel, PMode.arrItems, cs =>
    match parseCore fuel PMode.val cs with
    | none => none
    | some (v, rest) =>
      match skipWs rest with
      | ',' :: rest2 =>
        (match parseCore fuel PMode.arrItems rest2 with
         | some (Json.arr xs, r) => some (Json.arr (v :: xs), r)
         | _ => none)
      | ']' :: rest2 => some (Json.arr [v], rest2)
      | _ => none
  | Nat.succ fuel, PMode.objItems, cs =>
    match skipWs cs with
    | '"' :: rest =>
      (match parseStringRest rest [] with
       | none => none
       | some (k, rest1) =>
         match skipWs rest1 with
         | ':' :: rest2 =>
           (match parseCore fuel PMode.val rest2 with
            | none => none
            | some (v, rest3) =>
              match skipWs rest3 with
              | ',' :: rest4 =>
                (match parseCore fuel PMode.objItems rest4 with
                 | some (Json.obj kvs, r) => some (Json.obj ((k, v) :: kvs), r)
                 | _ => none)
              | '\x7d' :: rest4 => some (Json.obj [(k, v)], rest4)
              | _ => none)
         | _ => none)
    | _ => none

/-- Model of `json.loads`: parse one JSON document and require that only
whitespace remains. -/
def jsonLoads (s : String) : Option Json :=
  match parseCore (2 * s.data.length + 4) PMode.val s.data with
  | some (v, rest) => if skipWs rest = [] then some v else none
  | none => none

/-! ### The tolerant extractor `parse_json_safe` -/

/-- The first, fence-stripping attempt of `parse_json_safe`:
`cleaned = txt.strip()`, and if `cleaned.startswith("```")` then
`"\n".join(cleaned.splitlines()[1:-1])`. -/
def cleanFenced (txt : String) : String :=
  let cleaned := pyStrip txt
  if pyStartsWith cleaned.data "```".data then
    pyJoinNl (((pySplitlines cleaned).drop 1).dropLast)
  else cleaned

/-- The fallback substring of `parse_json_safe`:
`txt[txt.find("\x7b") : txt.rfind("\x7d") + 1]`, with Python's `-1` for a
missing character and Python slice semantics. -/
def braceSub (txt : String) : String :=
  let l := txt.data
  let start : Int := match firstIdxCh l '\x7b' with | some i => (i : Int) | none => -1
  let stop : Int := (match lastIdxCh l '\x7d' with | some j => (j : Int) | none => -1) + 1
  String.mk (pySliceL l start stop)

/-- `parse_json_safe`.  A failure carries the document string of the
final failing `json.loads` call (the `doc` attribute of Python's
`JSONDecodeError`). -/
def parse_json_safe (txt : String) : Except String Json :=
  match jsonLoads (cleanFenced txt) with
  | some v => Except.ok v
  | none =>
    match jsonLoads (braceSub txt) with
    | some v => Except.ok v
    | none => Except.error (braceSub txt)

/-- The submit handler's remote branch keeps a report only when
`parse_json_safe` succeeds; on failure it shows the error and stops. -/
def remoteReport (raw : String) : Option Json :=
  match parse_json_safe raw with
  | Except.ok v => some v
  | Except.error _ => none

/-- The document string carried by an extraction failure. -/
def errDoc : Except String Json → Option String
  | Except.error e => some e
  | Except.ok _ => none

/-- Substring test (is `pat` a contiguous substring of `hay`). -/
def containsSub (hay pat : List Char) : Bool :=
  match hay with
  | [] => pyStartsWith [] pat
  | _ :: rest => pyStartsWith hay pat || containsSub rest pat

/-! ### The report data model -/

/-- One `(year, value)` entry of `projected_values`. -/
structure ProjEntry where
  year : ℤ
  value : ℤ
deriving DecidableEq

/-- The `property` block of a report. -/
structure PropertySummary where
  address : String
  estimated_current_value : ℚ
  currency : String
deriving DecidableEq

/-- The `prediction` block of a report. -/
structure Prediction where
  annual_growth_pct : ℚ
  projection_years : ℕ
  projected_values : List ProjEntry
  confidence_pct : ℚ
deriving DecidableEq

/-- The `strategy` block of a report. -/
structure StrategyBlock where
  best_strategy : String
  explanation : String
  expected_roi_pct : ℚ
deriving DecidableEq

/-- The `negotiation_tip` block of a report. -/
structure NegotiationTip where
  amount_off_suggestion : ℤ
  reason : String
deriving DecidableEq

/-- One `comparables` record. -/
structure Comparable where
  address : String
  sale_price : ℚ
  days_on_market : ℤ
deriving DecidableEq

/-- One `alternative_opportunities` record. -/
structure AltOpportunity where
  type : String
  address : String
  estimated_roi_pct : ℚ
deriving DecidableEq

/-- The full investment report. -/
structure InvestmentReport where
  property : PropertySummary
  prediction : Prediction
  strategy : StrategyBlock
  negotiation_tip : NegotiationTip
  comparables : List Comparable
  alternative_opportunities : List AltOpportunity
deriving DecidableEq

/-! ### The local (demo-mode) computation -/

/-- Python's `round` on an exact rational: nearest integer, ties to
even. -/
def pyRound (q : ℚ) : ℤ :=
  let fl := ⌊q⌋
  let frac := q - (fl : ℚ)
  if frac < 1 / 2 then fl
  else if 1 / 2 < frac then fl + 1
  else if fl % 2 = 0 then fl else fl + 1

/-- `base = estimated_value if estimated_value>0 else (purchase_price if
purchase_price>0 else 300000)`.  Both form inputs are non-negative
integers (`st.number_input` with `min_value=0`). -/
def baseValue (estimated_value purchase_price : ℕ) : ℕ :=
  if estimated_value > 0 then estimated_value
  else if purchase_price > 0 then purchase_price
  else 300000

/-- `annual = 3.2`. -/
def annual : ℚ := 32 / 10

/-- The loop `for i in range(1, years+1): projected.append({"year":
current_year + i, "value": round(base * ((1+annual/100) ** i))})`,
with Python float arithmetic modelled exactly. -/
def projected (base years : ℕ) (current_year : ℤ) : List ProjEntry :=
  (List.range' 1 years).map
    (fun i : ℕ => ⟨current_year + (i : ℤ), pyRound ((base : ℚ) * (1 + annual / 100) ^ i)⟩)

/-- The locally computed result of the demo-mode `elif` branch
(lines 146–161 of `valora_streamlit.py`).  `current_year` models
`pd.Timestamp.now().year`, an input read from the clock. -/
def localResult (address : String) (estimated_value purchase_price years : ℕ)
    (current_year : ℤ) : InvestmentReport :=
  let base := baseValue estimated_value purchase_price
  { property := ⟨address, (base : ℚ), "USD"⟩
    prediction := ⟨annual, years, projected base years current_year, 60⟩
    strategy := ⟨"buy_hold",
      "Conservative recommendation based on generic market trends.", 58 / 10⟩
    negotiation_tip := ⟨⌊(base : ℚ) * (3 / 100)⌋,
      "Typical minor repairs & market friction."⟩
    comparables := []
    alternative_opportunities := [] }

/-- The canned result stored in `DEMO_RESULTS`. -/
def demoReport : InvestmentReport :=
  { property := ⟨"123 Main St, Los Angeles, CA", 750000, "USD"⟩
    prediction := ⟨45 / 10, 3,
      [⟨2025, 783750⟩, ⟨2026, 818900⟩, ⟨2027, 855120⟩], 78⟩
    strategy := ⟨"buy_hold",
      "Strong rental demand and steady appreciation in this zip code.", 81 / 10⟩
    negotiation_tip := ⟨20000,
      "Older roof and 45 days on market give negotiating leverage."⟩
    comparables := [⟨"118 Elm St", 732000, 38⟩, ⟨"234 Oak Ave", 769000, 22⟩]
    alternative_opportunities := [⟨"duplex", "200 Maple St", 92 / 10⟩] }

/-- `DEMO_RESULTS`, a one-entry dictionary keyed by address. -/
def DEMO_RESULTS : List (String × InvestmentReport) :=
  [("123 Main St, Los Angeles, CA", demoReport)]

/-- The report produced in demo mode: the canned result when the address
is a `DEMO_RESULTS` key, the local computation otherwise. -/
def demoModeResult (address : String) (estimated_value purchase_price years : ℕ)
    (current_year : ℤ) : InvestmentReport :=
  match DEMO_RESULTS.lookup address with
  | some r => r
  | none => localResult address estimated_value purchase_price years current_year

/-! ### The remote requester's credential check -/

/-- The failures `call_openai_chat` can raise before returning a reply:
the `openai` import failed, or no API key was resolvable. -/
inductive RemoteError where
  | libMissing : RemoteError
  | missingCredential : RemoteError
deriving DecidableEq

/-- Python's `a or b` on optional strings: the empty string is falsy. -/
def pyOrStr (a b : Option String) : Option String :=
  match a with
  | some s => if s = "" then b else some s
  | none => b

/-- `call_openai_chat`, with the network call abstracted as `respond`.
The second component counts outbound network calls
(`openai.ChatCompletion.create` invocations). -/
def call_openai_chat (openaiAvailable : Bool) (envKey secretsKey : Option String)
    (respond : String → String) : Except RemoteError String × ℕ :=
  if openaiAvailable = false then (Except.error RemoteError.libMissing, 0)
  else
    match pyOrStr envKey secretsKey with
    | none => (Except.error RemoteError.missingCredential, 0)
    | some k =>
      if k = "" then (Except.error RemoteError.missingCredential, 0)
      else (Except.ok (respond k), 1)

/-- All monetary fields of a report are non-negative: the estimated
current value, every projected value, the suggested discount and every
comparable's sale price. -/
def monetaryOk (r : InvestmentReport) : Prop :=
  0 ≤ r.property.estimated_current_value ∧
  (∀ e ∈ r.prediction.projected_values, 0 ≤ e.value) ∧
  0 ≤ r.negotiation_tip.amount_off_suggestion ∧
  (∀ c ∈ r.comparables, 0 ≤ c.sale_price)

/-! ### Sanity checks on the executable model -/

example : jsonLoads "\x7b\x7d" = some (Json.obj []) := rfl
example : jsonLoads "hello" = none := rfl
example : parse_json_safe "hello" = Except.error "" := rfl

example : (projected 1 2 2025).map ProjEntry.value = [1, 1] := by
  simp only [projected, List.range', List.map, pyRound, annual]
  norm_num

example : (projected 300000 3 2025).map ProjEntry.value = [309600, 319507, 329731] := by
  simp only [projected, List.range', List.map, pyRound, annual]
  norm_num

/-! ### Properties of `pyRound` -/

theorem pyRound_le (q : ℚ) : (pyRound q : ℚ) ≤ q + 1 / 2 := by
  have h0 : (⌊q⌋ : ℚ) ≤ q := Int.floor_le q
  have h1 : q < (⌊q⌋ : ℚ) + 1 := Int.lt_floor_add_one q
  simp only [pyRound]
  split
  · linarith
  · split
    · push_cast
      linarith
    · split <;> push_cast <;> linarith

theorem le_pyRound (q : ℚ) : q - 1 / 2 ≤ (pyRound q : ℚ) := by
  have h0 : (⌊q⌋ : ℚ) ≤ q := Int.floor_le q
  have h1 : q < (⌊q⌋ : ℚ) + 1 := Int.lt_floor_add_one q
  simp only [pyRound]
  split
  · linarith
  · split
    · push_cast
      linarith
    · split <;> push_cast <;> linarith

/-- Away from exact half-integers, `pyRound` is the strictly nearest
integer. -/
theorem pyRound_near (q : ℚ) (h : ∀ k : ℤ, q ≠ (k : ℚ) + 1 / 2) :
    |q - (pyRound q : ℚ)| < 1 / 2 := by
  have h0 : (⌊q⌋ : ℚ) ≤ q := Int.floor_le q
  have h1 : q < (⌊q⌋ : ℚ) + 1 := Int.lt_floor_add_one q
  have hne : q ≠ (⌊q⌋ : ℚ) + 1 / 2 := h ⌊q⌋
  simp only [pyRound]
  rw [abs_sub_lt_iff]
  split
  · constructor <;> linarith
  · rename_i h2
    split
    · push_cast
      constructor <;> linarith
    · rename_i h3
      have : q - (⌊q⌋ : ℚ) = 1 / 2 := by linarith
      exact absurd (by linarith) hne

/-- Monotonicity of `pyRound` on strictly increasing inputs. -/
theorem pyRound_mono_lt {a b : ℚ} (h : a < b) : pyRound a ≤ pyRound b := by
  have h1 := pyRound_le a
  have h2 := le_pyRound b
  have : (pyRound a : ℚ) < (pyRound b : ℚ) + 1 := by linarith
  exact_mod_cast Int.lt_add_one_iff.mp (by exact_mod_cast this)

/-- Inputs more than one unit apart round to strictly increasing
integers. -/
theorem pyRound_strict {a b : ℚ} (h : a + 1 < b) : pyRound a < pyRound b := by
  have h1 := pyRound_le a
  have h2 := le_pyRound b
  have : (pyRound a : ℚ) < (pyRound b : ℚ) := by linarith
  exact_mod_cast this

theorem one_le_pyRound {q : ℚ} (h : 1 ≤ q) : 1 ≤ pyRound q := by
  have h2 := le_pyRound q
  have h3 : (0 : ℚ) < (pyRound q : ℚ) := by linarith
  have h4 : (0 : ℤ) < pyRound q := by exact_mod_cast h3
  omega

/-- `base · (129/125)^i` is never an exact half-integer: ties cannot
occur in the projection values. -/
theorem projection_no_tie (base : ℕ) (i : ℕ) :
    ∀ k : ℤ, (base : ℚ) * (129 / 125) ^ i ≠ (k : ℚ) + 1 / 2 := by
  intro k hk
  have h125 : ((125 : ℚ)) ^ i ≠ 0 := by positivity
  have key : ((2 * base * 129 ^ i : ℤ) : ℚ) = (((2 * k + 1) * 125 ^ i : ℤ) : ℚ) := by
    push_cast
    rw [div_pow] at hk
    field_simp at hk
    linarith
  have keyZ : (2 * (base : ℤ) * 129 ^ i) = (2 * k + 1) * 125 ^ i := by exact_mod_cast key
  have hev : Even (2 * (base : ℤ) * 129 ^ i) := ⟨(base : ℤ) * 129 ^ i, by ring⟩
  have hodd : Odd ((2 * k + 1) * 125 ^ i) :=
    Odd.mul ⟨k, by ring⟩ (Odd.pow ⟨62, by norm_num⟩)
  rw [keyZ] at hev
  exact (Int.not_odd_iff_even.mpr hev) hodd

/-- The growth factor written in the code equals `129/125`. -/
theorem growth_eq : (1 : ℚ) + annual / 100 = 129 / 125 := by
  norm_num [annual]

/-- Helper: a `Chain'` over the mapped `range'`. -/
theorem chain'_map_range' (P : ℤ → ℤ → Prop) (f : ℕ → ℤ) (s n : ℕ)
    (h : ∀ i, s ≤ i → P (f i) (f (i + 1))) :
    List.Chain' P ((List.range' s n).map f) := by
  induction n generalizing s with
  | zero => simp
  | succ m ih =>
    rw [List.range'_succ]
    cases m with
    | zero => simp
    | succ k =>
      rw [List.range'_succ, List.map_cons, List.map_cons, List.chain'_cons]
      refine ⟨h s le_rfl, ?_⟩
      have := ih (s + 1) (fun i hi => h i (by omega))
      rwa [List.range'_succ, List.map_cons] at this

/-- Helper: consecutive projection values grow by more than zero, and by
more than one whole unit once the base is at least 31. -/
theorem projection_gap (base : ℕ) (i : ℕ) (hb : 0 < base) (hi : 1 ≤ i) :
    (base : ℚ) * (129 / 125) ^ i < (base : ℚ) * (129 / 125) ^ (i + 1) ∧
    (31 ≤ base → (base : ℚ) * (129 / 125) ^ i + 1 < (base : ℚ) * (129 / 125) ^ (i + 1)) := by
  have hbase : (1 : ℚ) ≤ (base : ℚ) := by exact_mod_cast hb
  have hgpow : ((129 : ℚ) / 125) ^ 1 ≤ (129 / 125) ^ i :=
    pow_le_pow_right₀ (by norm_num) hi
  have hpos : (0 : ℚ) < (129 / 125) ^ i := by positivity
  have hsucc : ((129 : ℚ) / 125) ^ (i + 1) = (129 / 125) ^ i * (129 / 125) := pow_succ _ _
  constructor
  · rw [hsucc]
    nlinarith
  · intro h31
    have hbase31 : (31 : ℚ) ≤ (base : ℚ) := by exact_mod_cast h31
    rw [hsucc]
    have hgap : (base : ℚ) * (129 / 125) ^ i * (4 / 125) > 1 := by
      have : (31 : ℚ) * (129 / 125) * (4 / 125) > 1 := by norm_num
      nlinarith
    nlinarith

/-- Helper: each projection value is at least `base` raised once, hence
at least 1. -/
theorem projection_value_ge_one (base : ℕ) (i : ℕ) (hb : 0 < base) :
    (1 : ℚ) ≤ (base : ℚ) * (129 / 125) ^ i := by
  have hbase : (1 : ℚ) ≤ (base : ℚ) := by exact_mod_cast hb
  have hp : (1 : ℚ) ≤ (129 / 125) ^ i := by
    induction i with
    | zero => norm_num
    | succ n ih => rw [pow_succ]; nlinarith
  nlinarith

/-- Claim C3: for every non-negative pair of inputs, the base value is
the estimated current value if positive, else the purchase price if
positive, else 300000. -/
theorem spec_c3 (estimated_value purchase_price : ℕ) :
    (0 < estimated_value → baseValue estimated_value purchase_price = estimated_value) ∧
    (estimated_value = 0 → 0 < purchase_price →
      baseValue estimated_value purchase_price = purchase_price) ∧
    (estimated_value = 0 → purchase_price = 0 →
      baseValue estimated_value purchase_price = 300000) := by
  refine ⟨fun h => ?_, fun h0 hp => ?_, fun h0 hp0 => ?_⟩ <;>
    simp [baseValue, *]

theorem spec_c3_witness :
    baseValue 500000 250000 = 500000 ∧ baseValue 0 250000 = 250000 ∧
    baseValue 0 0 = 300000 :=
  ⟨(spec_c3 500000 250000).1 (by decide),
   (spec_c3 0 250000).2.1 rfl (by decide),
   (spec_c3 0 0).2.2 rfl rfl⟩

/-- Claim C4: for a positive base and horizon, the `i`-th projected value
(1-indexed) is labelled with year `current_year + i` and is the integer
nearest to `base * (1 + annual/100)^i`, where `annual = 3.2`; ties never
occur, so rounding to the nearest whole unit is unambiguous. -/
theorem spec_c4 (base years : ℕ) (current_year : ℤ) (i : ℕ)
    (_hb : 0 < base) (h1 : 1 ≤ i) (h2 : i ≤ years) :
    ∃ e : ProjEntry,
      (projected base years current_year)[i - 1]? = some e ∧
      e.year = current_year + (i : ℤ) ∧
      |(base : ℚ) * (1 + annual / 100) ^ i - (e.value : ℚ)| < 1 / 2 ∧
      annual = 32 / 10 := by
  refine ⟨⟨current_year + (i : ℤ), pyRound ((base : ℚ) * (1 + annual / 100) ^ i)⟩,
    ?_, rfl, ?_, rfl⟩
  · rw [projected, List.getElem?_map, List.getElem?_range' _ _ (show i - 1 < years by omega)]
    have hidx : 1 + 1 * (i - 1) = i := by omega
    rw [hidx]
    rfl
  · rw [growth_eq]
    exact pyRound_near _ (projection_no_tie base i)

theorem spec_c4_witness :
    ∃ e : ProjEntry,
      (projected 300000 3 2025)[(1 : ℕ) - 1]? = some e ∧
      e.year = 2025 + ((1 : ℕ) : ℤ) ∧
      |((300000 : ℕ) : ℚ) * (1 + annual / 100) ^ 1 - (e.value : ℚ)| < 1 / 2 ∧
      annual = 32 / 10 :=
  spec_c4 300000 3 2025 1 (by decide) (by decide) (by decide)

/-- Claim C5 counterexample: with (positive) base 1 and horizon 2 the
projected-value sequence is [1, 1], which is not strictly increasing even
though the growth rate 3.2% is positive. -/
theorem spec_c5_counterexample :
    0 < (1 : ℕ) ∧
    (projected 1 2 2025).map ProjEntry.value = [1, 1] ∧
    ¬ List.Chain' (· < ·) ((projected 1 2 2025).map ProjEntry.value) := by
  have hmap : (projected 1 2 2025).map ProjEntry.value = [1, 1] := by
    simp only [projected, List.range', List.map, pyRound, annual]
    norm_num
  refine ⟨Nat.one_pos, hmap, ?_⟩
  rw [hmap]
  simp

/-- Claim C5, amended: for every positive base and horizon the sequence
has exactly `years` entries, each value is non-negative (indeed at least
1), and the sequence is non-decreasing; it is strictly increasing
whenever the base is at least 31 (for tiny bases consecutive rounded
values can coincide). -/
theorem spec_c5_amended (base years : ℕ) (current_year : ℤ) (hb : 0 < base) :
    (projected base years current_year).length = years ∧
    (∀ e ∈ projected base years current_year, 0 ≤ e.value) ∧
    List.Chain' (· ≤ ·) ((projected base years current_year).map ProjEntry.value) ∧
    (31 ≤ base →
      List.Chain' (· < ·) ((projected base years current_year).map ProjEntry.value)) := by
  refine ⟨by simp [projected], ?_, ?_, ?_⟩
  · intro e he
    simp only [projected, List.mem_map] at he
    obtain ⟨i, hi, rfl⟩ := he
    have h1 : 1 ≤ pyRound ((base : ℚ) * (1 + annual / 100) ^ i) := by
      rw [growth_eq]
      exact one_le_pyRound (projection_value_ge_one base i hb)
    simpa using by omega
  · rw [projected, List.map_map]
    apply chain'_map_range'
    intro i hi
    simp only [Function.comp]
    rw [growth_eq]
    exact pyRound_mono_lt (projection_gap base i hb hi).1
  · intro h31
    rw [projected, List.map_map]
    apply chain'_map_range'
    intro i hi
    simp only [Function.comp]
    rw [growth_eq]
    exact pyRound_strict ((projection_gap base i hb hi).2 h31)

theorem spec_c5_witness :
    (projected 31 3 2025).length = 3 ∧
    (∀ e ∈ projected 31 3 2025, 0 ≤ e.value) ∧
    List.Chain' (· ≤ ·) ((projected 31 3 2025).map ProjEntry.value) ∧
    (31 ≤ 31 →
      List.Chain' (· < ·) ((projected 31 3 2025).map ProjEntry.value)) :=
  spec_c5_amended 31 3 2025 (by decide)

/-- Claim C6 counterexample: for estimated value 300000 and horizon 3 the
local result reports an expected ROI of 5.8 (percent), which is neither
the ratio `(future_value - base)/base` nor that ratio expressed as a
percentage. -/
theorem spec_c6_counterexample :
    (localResult "123 Main St" 300000 0 3 2025).strategy.expected_roi_pct = 58 / 10 ∧
    (58 : ℚ) / 10 ≠
      ((300000 : ℚ) * (1 + annual / 100) ^ 3 - 300000) / 300000 ∧
    (58 : ℚ) / 10 ≠
      ((300000 : ℚ) * (1 + annual / 100) ^ 3 - 300000) / 300000 * 100 := by
  refine ⟨rfl, ?_, ?_⟩ <;> · rw [growth_eq]; norm_num

/-- Claim C6, amended: the local computation never evaluates the
buy-and-hold ROI formula; its strategy block is the constant `buy_hold`
recommendation with the fixed expected ROI 5.8 percent, independent of
all inputs. -/
theorem spec_c6_amended (address : String) (estimated_value purchase_price years : ℕ)
    (current_year : ℤ) :
    (localResult address estimated_value purchase_price years current_year).strategy.best_strategy
        = "buy_hold" ∧
    (localResult address estimated_value purchase_price years current_year).strategy.expected_roi_pct
        = 58 / 10 :=
  ⟨rfl, rfl⟩

/-- Claim C7: with the `openai` library importable but no environment
variable and no other key source, `call_openai_chat` fails with the
missing-credential error and performs zero network calls; an empty
environment value (falsy in Python) behaves the same. -/
theorem spec_c7 (respond : String → String) :
    call_openai_chat true none none respond
        = (Except.error RemoteError.missingCredential, 0) ∧
    call_openai_chat true (some "") none respond
        = (Except.error RemoteError.missingCredential, 0) :=
  ⟨rfl, rfl⟩

/-- Claim C9 counterexample: the computation reads the current calendar
year from the clock (`pd.Timestamp.now().year`); two invocations with
identical form inputs but different clock years yield different
reports. -/
theorem spec_c9_counterexample :
    localResult "a" 1000 0 1 2025 ≠ localResult "a" 1000 0 1 2026 := by
  intro h
  have hy := congrArg
    (fun r => (r.prediction.projected_values.headD ⟨0, 0⟩).year) h
  simp only [localResult, projected, List.range', List.map, List.headD, List.head?] at hy
  omega

/-- Claim C9, amended: the local computation is a pure function of the
form inputs together with the current clock year; with the year fixed it
is idempotent, and across different clock years the two reports agree on
everything except the year labels of `projected_values`. -/
theorem spec_c9_amended (address : String) (estimated_value purchase_price years : ℕ)
    (y₁ y₂ : ℤ) :
    ((localResult address estimated_value purchase_price years y₁).property
        = (localResult address estimated_value purchase_price years y₂).property ∧
     (localResult address estimated_value purchase_price years y₁).strategy
        = (localResult address estimated_value purchase_price years y₂).strategy ∧
     (localResult address estimated_value purchase_price years y₁).negotiation_tip
        = (localResult address estimated_value purchase_price years y₂).negotiation_tip ∧
     (localResult address estimated_value purchase_price years y₁).comparables
        = (localResult address estimated_value purchase_price years y₂).comparables ∧
     (localResult address estimated_value purchase_price years y₁).alternative_opportunities
        = (localResult address estimated_value purchase_price years y₂).alternative_opportunities ∧
     (localResult address estimated_value purchase_price years y₁).prediction.annual_growth_pct
        = (localResult address estimated_value purchase_price years y₂).prediction.annual_growth_pct ∧
     (localResult address estimated_value purchase_price years y₁).prediction.projection_years
        = (localResult address estimated_value purchase_price years y₂).prediction.projection_years ∧
     (localResult address estimated_value purchase_price years y₁).prediction.confidence_pct
        = (localResult address estimated_value purchase_price years y₂).prediction.confidence_pct ∧
     ((localResult address estimated_value purchase_price years y₁).prediction.projected_values.map
          ProjEntry.value
        = (localResult address estimated_value purchase_price years y₂).prediction.projected_values.map
          ProjEntry.value)) ∧
    (y₁ = y₂ →
      localResult address estimated_value purchase_price years y₁
        = localResult address estimated_value purchase_price years y₂) := by
  refine ⟨⟨rfl, rfl, rfl, rfl, rfl, rfl, rfl, rfl, ?_⟩, fun h => by rw [h]⟩
  simp only [localResult, projected, List.map_map]
  rfl

theorem spec_c9_witness :
    ((localResult "a" 1000 0 1 2025).prediction.projected_values.map ProjEntry.value
        = (localResult "a" 1000 0 1 2026).prediction.projected_values.map ProjEntry.value) ∧
    localResult "a" 1000 0 1 2025 = localResult "a" 1000 0 1 2025 :=
  ⟨(spec_c9_amended "a" 1000 0 1 2025 2026).1.2.2.2.2.2.2.2.2,
   (spec_c9_amended "a" 1000 0 1 2025 2025).2 rfl⟩

/-- Claim C10: for every pair of non-negative user inputs the base value
is strictly positive — one of the positive inputs or the 300000
fallback — so it is a non-zero rational and any division by it (as in
the spec's ROI formulas) is well defined; the local report's estimated
current value is exactly this positive base. -/
theorem spec_c10 (address : String) (estimated_value purchase_price years : ℕ)
    (current_year : ℤ) :
    0 < baseValue estimated_value purchase_price ∧
    ((baseValue estimated_value purchase_price : ℚ) ≠ 0) ∧
    (localResult address estimated_value purchase_price years current_year).property.estimated_current_value
        = (baseValue estimated_value purchase_price : ℚ) ∧
    ((0 < estimated_value ∧
        baseValue estimated_value purchase_price = estimated_value) ∨
     (estimated_value = 0 ∧ 0 < purchase_price ∧
        baseValue estimated_value purchase_price = purchase_price) ∨
     (estimated_value = 0 ∧ purchase_price = 0 ∧
        baseValue estimated_value purchase_price = 300000)) := by
  have hpos : 0 < baseValue estimated_value purchase_price := by
    unfold baseValue
    split
    · assumption
    · split
      · assumption
      · norm_num
  refine ⟨hpos, by exact_mod_cast hpos.ne', rfl, ?_⟩
  unfold baseValue
  rcases Nat.eq_zero_or_pos estimated_value with h0 | h1
  · rcases Nat.eq_zero_or_pos purchase_price with hp0 | hp1
    · subst h0; subst hp0; simp
    · right; left
      simp [h0, hp1]
  · left
    refine ⟨h1, ?_⟩
    simp [h1]

/-- Claim C1 counterexample: in demo mode the canned result for the demo
address is returned unchanged, so with requested horizon 5 the
projected-value sequence still has 3 entries, not 5. -/
theorem spec_c1_counterexample :
    (demoModeResult "123 Main St, Los Angeles, CA" 0 0 5 2025).prediction.projected_values.length
      ≠ 5 := by
  decide

/-- Claim C1, amended: every report the demo-mode generator produces has
a projected-value sequence whose length equals the report's own
`projection_years` field, all monetary fields non-negative, and numeric
confidence and ROI percentages (60 and 5.8 for the local computation, 78
and 8.1 for the canned result); the length equals the horizon the caller
requested whenever the address is not the canned demo key (the canned
result keeps its fixed 3-year horizon regardless of the request). -/
theorem spec_c1_amended (address : String) (estimated_value purchase_price years : ℕ)
    (current_year : ℤ) :
    (demoModeResult address estimated_value purchase_price years current_year).prediction.projected_values.length
        = (demoModeResult address estimated_value purchase_price years current_year).prediction.projection_years ∧
    monetaryOk (demoModeResult address estimated_value purchase_price years current_year) ∧
    ((demoModeResult address estimated_value purchase_price years current_year).prediction.confidence_pct = 60 ∨
     (demoModeResult address estimated_value purchase_price years current_year).prediction.confidence_pct = 78) ∧
    ((demoModeResult address estimated_value purchase_price years current_year).strategy.expected_roi_pct = 58 / 10 ∨
     (demoModeResult address estimated_value purchase_price years current_year).strategy.expected_roi_pct = 81 / 10) ∧
    (address ≠ "123 Main St, Los Angeles, CA" →
      (demoModeResult address estimated_value purchase_price years current_year).prediction.projected_values.length
        = years) := by
  have hbase : 0 < baseValue estimated_value purchase_price := by
    unfold baseValue
    split
    · assumption
    · split
      · assumption
      · norm_num
  by_cases haddr : "123 Main St, Los Angeles, CA" = address
  · have hres : demoModeResult address estimated_value purchase_price years current_year
        = demoReport := by
      simp [demoModeResult, DEMO_RESULTS, List.lookup, haddr]
    rw [hres]
    refine ⟨rfl, ?_, Or.inr rfl, Or.inr rfl, fun hne => absurd haddr.symm hne⟩
    refine ⟨by norm_num [demoReport], ?_, by norm_num [demoReport], ?_⟩
    · intro e he
      simp only [demoReport, List.mem_cons, List.not_mem_nil, or_false] at he
      rcases he with rfl | rfl | rfl <;> norm_num
    · intro c hc
      simp only [demoReport, List.mem_cons, List.not_mem_nil, or_false] at hc
      rcases hc with rfl | rfl <;> norm_num
  · have hne : (address == "123 Main St, Los Angeles, CA") = false :=
      beq_eq_false_iff_ne.mpr (fun h => haddr h.symm)
    have hres : demoModeResult address estimated_value purchase_price years current_year
        = localResult address estimated_value purchase_price years current_year := by
      simp [demoModeResult, DEMO_RESULTS, List.lookup, hne]
    rw [hres]
    refine ⟨by simp [localResult, projected], ?_, Or.inl rfl, Or.inl rfl,
      fun _ => by simp [localResult, projected]⟩
    refine ⟨?_, ?_, ?_, ?_⟩
    · simp only [localResult]
      positivity
    · intro e he
      simp only [localResult, projected, List.mem_map] at he
      obtain ⟨i, hi, rfl⟩ := he
      have h1 : 1 ≤ pyRound ((baseValue estimated_value purchase_price : ℚ)
          * (1 + annual / 100) ^ i) := by
        rw [growth_eq]
        exact one_le_pyRound (projection_value_ge_one _ i hbase)
      simpa using by omega
    · simp only [localResult]
      exact Int.floor_nonneg.mpr (by positivity)
    · intro c hc
      simp [localResult] at hc

theorem spec_c1_witness :
    ("42 Elm St" : String) ≠ "123 Main St, Los Angeles, CA" ∧
    (demoModeResult "42 Elm St" 0 0 4 2025).prediction.projected_values.length = 4 :=
  ⟨by decide, (spec_c1_amended "42 Elm St" 0 0 4 2025).2.2.2.2 (by decide)⟩

/-! ### String lemmas for the tolerant extractor -/

theorem data_append (a b : String) : (a ++ b).data = a.data ++ b.data := rfl

theorem slGo_cons_ne (c : Char) (h1 : c ≠ '\n') (h2 : c ≠ '\r') (l cur : List Char) :
    slGo (c :: l) cur = slGo l (c :: cur) := by
  rw [slGo.eq_def]
  split
  · rename_i heq
    exact absurd heq (by simp)
  · rename_i heq
    injection heq with hc _
    exact absurd hc h2
  · rename_i heq
    injection heq with hc _
    exact absurd hc h2
  · rename_i heq
    injection heq with hc _
    exact absurd hc h1
  · rename_i heq
    injection heq with hc hl
    subst hc
    subst hl
    rfl

theorem slGo_tail (t : List Char) (h : ∀ c ∈ t, c ≠ '\n' ∧ c ≠ '\r') :
    ∀ cur : List Char,
      slGo (t ++ '\n' :: "```".data) cur = [String.mk (cur.reverse ++ t), "```"] := by
  induction t with
  | nil =>
    intro cur
    have hbase : slGo ('\n' :: "```".data) cur = [String.mk cur.reverse, "```"] := rfl
    simpa using hbase
  | cons c t ih =>
    intro cur
    have hc := h c (List.mem_cons_self c t)
    rw [List.cons_append, slGo_cons_ne c hc.1 hc.2,
      ih (fun x hx => h x (List.mem_cons_of_mem c hx))]
    simp

theorem stripL_id (l : List Char)
    (hh : ∀ c ∈ l.head?, isPyWs c = false)
    (hl : ∀ c ∈ l.getLast?, isPyWs c = false) :
    stripL l = l := by
  cases l with
  | nil => rfl
  | cons a t =>
    have ha : isPyWs a = false := hh a rfl
    unfold stripL
    rw [List.dropWhile_cons_of_neg (by simp [ha])]
    cases hrev : (a :: t).reverse with
    | nil => exact absurd hrev (by simp)
    | cons b u =>
      have hb : isPyWs b = false := by
        apply hl
        rw [← List.head?_reverse, hrev]
        rfl
      rw [List.dropWhile_cons_of_neg (by simp [hb]), ← hrev, List.reverse_reverse]

theorem pySplitlines_fence (s : String) (h : ∀ c ∈ s.data, c ≠ '\n' ∧ c ≠ '\r') :
    slGo (("```json\n" ++ s ++ "\n```").data) [] = ["```json", s, "```"] := by
  have hdata : ("```json\n" ++ s ++ "\n```").data
      = "```json\n".data ++ (s.data ++ "\n```".data) := by
    cases s
    simp
  rw [hdata]
  have hstep : slGo ("```json\n".data ++ (s.data ++ "\n```".data)) [] =
      "```json" :: slGo (s.data ++ "\n```".data) [] := rfl
  rw [hstep]
  have htail := slGo_tail s.data h []
  simp only [List.reverse_nil, List.nil_append] at htail
  rw [show ("\n```".data = '\n' :: "```".data) from rfl, htail]

theorem cleanFenced_fence (s : String) (h : ∀ c ∈ s.data, c ≠ '\n' ∧ c ≠ '\r') :
    cleanFenced ("```json\n" ++ s ++ "\n```") = s := by
  have hdata : ("```json\n" ++ s ++ "\n```").data
      = "```json\n".data ++ (s.data ++ "\n```".data) := by
    cases s
    simp
  have hstrip : pyStrip ("```json\n" ++ s ++ "\n```") = "```json\n" ++ s ++ "\n```" := by
    have hh : ∀ c ∈ ("```json\n" ++ s ++ "\n```").data.head?, isPyWs c = false := by
      have e : ("```json\n" ++ s ++ "\n```").data.head? = "```".data.head? := by
        rw [hdata]
        rfl
      rw [e]
      decide
    have hl2 : ∀ c ∈ ("```json\n" ++ s ++ "\n```").data.getLast?, isPyWs c = false := by
      rw [hdata, List.getLast?_append_of_ne_nil _ (by simp),
        List.getLast?_append_of_ne_nil _ (by simp)]
      decide
    show String.mk (stripL ("```json\n" ++ s ++ "\n```").data) = "```json\n" ++ s ++ "\n```"
    rw [stripL_id _ hh hl2]
  have hsw : pyStartsWith ("```json\n" ++ s ++ "\n```").data "```".data = true := by
    rw [hdata]
    rfl
  simp only [cleanFenced, hstrip, hsw, if_true]
  rw [pySplitlines, pySplitlines_fence s h]
  rfl

theorem firstIdx_append (p l : List Char) (c : Char) (hp : ∀ x ∈ p, x ≠ c) :
    firstIdxCh (p ++ l) c = (firstIdxCh l c).map (· + p.length) := by
  induction p with
  | nil =>
    cases h : firstIdxCh l c <;> simp [h]
  | cons a p ih =>
    rw [List.cons_append]
    show (if a = c then some 0 else (firstIdxCh (p ++ l) c).map (· + 1))
      = (firstIdxCh l c).map (· + (a :: p).length)
    rw [if_neg (hp a (List.mem_cons_self a p)),
      ih (fun x hx => hp x (List.mem_cons_of_mem a hx))]
    cases firstIdxCh l c with
    | none => simp
    | some k =>
      simp
      omega

theorem firstIdx_cons_self (c : Char) (l : List Char) : firstIdxCh (c :: l) c = some 0 := by
  simp [firstIdxCh]

/-- The fallback slice of `parse_json_safe`: on a JSON object wrapped in
brace-free prose, the slice from the first opening to the last closing
brace recovers exactly the wrapped document. -/
theorem braceSub_wrap (p s q : String)
    (hp : ∀ x ∈ p.data, x ≠ '\x7b' ∧ x ≠ '\x7d')
    (hq : ∀ x ∈ q.data, x ≠ '\x7b' ∧ x ≠ '\x7d')
    (hhead : s.data.head? = some '\x7b')
    (hlast : s.data.getLast? = some '\x7d') :
    braceSub (p ++ s ++ q) = s := by
  obtain ⟨s1, hs1⟩ : ∃ s1, s.data = '\x7b' :: s1 := by
    cases hsd : s.data with
    | nil => rw [hsd] at hhead; exact absurd hhead (by simp)
    | cons a t =>
      rw [hsd] at hhead
      have ha : a = '\x7b' := by simpa using hhead
      exact ⟨t, by rw [ha]⟩
  obtain ⟨s2, hs2⟩ : ∃ s2, s.data.reverse = '\x7d' :: s2 := by
    have hrh : s.data.reverse.head? = some '\x7d' := by
      rw [List.head?_reverse]
      exact hlast
    cases hsd : s.data.reverse with
    | nil => rw [hsd] at hrh; exact absurd hrh (by simp)
    | cons a t =>
      rw [hsd] at hrh
      have ha : a = '\x7d' := by simpa using hrh
      exact ⟨t, by rw [ha]⟩
  have hslen : 1 ≤ s.data.length := by
    rw [hs1]
    simp
  have hdata : (p ++ s ++ q).data = p.data ++ (s.data ++ q.data) := by
    cases p
    cases s
    cases q
    simp
  have hfi : firstIdxCh (p ++ s ++ q).data '\x7b' = some p.data.length := by
    rw [hdata, firstIdx_append _ _ _ (fun x hx => (hp x hx).1),
      show s.data ++ q.data = '\x7b' :: (s1 ++ q.data) from by rw [hs1]; rfl,
      firstIdx_cons_self]
    simp
  have hla : lastIdxCh (p ++ s ++ q).data '\x7d'
      = some (p.data.length + s.data.length - 1) := by
    unfold lastIdxCh
    have hrev : (p ++ s ++ q).data.reverse
        = q.data.reverse ++ (s.data.reverse ++ p.data.reverse) := by
      rw [hdata]
      simp
    rw [hrev, firstIdx_append _ _ _ (fun x hx => (hq x (List.mem_reverse.mp hx)).2),
      show s.data.reverse ++ p.data.reverse = '\x7d' :: (s2 ++ p.data.reverse) from by
        rw [hs2]; rfl,
      firstIdx_cons_self]
    have hlen : (p ++ s ++ q).data.length
        = p.data.length + s.data.length + q.data.length := by
      rw [hdata]
      simp
      omega
    simp only [Option.map_some', hlen]
    congr 1
    simp
    omega
  simp only [braceSub, hfi, hla]
  have h1 : pyIdx (p ++ s ++ q).data.length ((p.data.length : ℕ) : ℤ) = p.data.length := by
    have hlen : (p ++ s ++ q).data.length
        = p.data.length + (s.data.length + q.data.length) := by
      rw [hdata]
      simp
    unfold pyIdx
    rw [hlen, if_neg (by omega : ¬ ((p.data.length : ℕ) : ℤ) < 0)]
    omega
  have h2 : pyIdx (p ++ s ++ q).data.length
      (((p.data.length + s.data.length - 1 : ℕ) : ℤ) + 1)
      = p.data.length + s.data.length := by
    have hlen : (p ++ s ++ q).data.length
        = p.data.length + (s.data.length + q.data.length) := by
      rw [hdata]
      simp
    unfold pyIdx
    rw [hlen, if_neg (by omega : ¬ (((p.data.length + s.data.length - 1 : ℕ) : ℤ) + 1) < 0)]
    omega
  rw [pySliceL, h1, h2]
  have h3 : p.data.length + s.data.length - p.data.length = s.data.length := by omega
  rw [h3, hdata, List.drop_left, List.take_left]

/-- Claim C2: the extractor proceeds in order with first success winning —
the fence-stripped, whitespace-trimmed text is parsed first, and on
failure the slice of the original text from the first opening brace to
the last closing brace (inclusive) is parsed; consequently a
newline-free JSON document wrapped only in a code fence is extracted
exactly, and a brace-delimited JSON document wrapped only in brace-free
prose is extracted successfully. -/
theorem spec_c2 :
    (∀ txt v, jsonLoads (cleanFenced txt) = some v →
      parse_json_safe txt = Except.ok v) ∧
    (∀ txt v, jsonLoads (cleanFenced txt) = none →
      jsonLoads (braceSub txt) = some v → parse_json_safe txt = Except.ok v) ∧
    (∀ s v, (∀ c ∈ s.data, c ≠ '\n' ∧ c ≠ '\r') → jsonLoads s = some v →
      parse_json_safe ("```json\n" ++ s ++ "\n```") = Except.ok v) ∧
    (∀ p s q v, (∀ x ∈ p.data, x ≠ '\x7b' ∧ x ≠ '\x7d') →
      (∀ x ∈ q.data, x ≠ '\x7b' ∧ x ≠ '\x7d') →
      s.data.head? = some '\x7b' → s.data.getLast? = some '\x7d' →
      jsonLoads s = some v →
      ∃ w, parse_json_safe (p ++ s ++ q) = Except.ok w) := by
  refine ⟨?_, ?_, ?_, ?_⟩
  · intro txt v h
    simp [parse_json_safe, h]
  · intro txt v h1 h2
    simp [parse_json_safe, h1, h2]
  · intro s v hnl hv
    have hc := cleanFenced_fence s hnl
    simp [parse_json_safe, hc, hv]
  · intro p s q v hp hq hh hl hv
    have hb := braceSub_wrap p s q hp hq hh hl
    cases hfirst : jsonLoads (cleanFenced (p ++ s ++ q)) with
    | some w => exact ⟨w, by simp [parse_json_safe, hfirst]⟩
    | none => exact ⟨v, by simp [parse_json_safe, hfirst, hb, hv]⟩

theorem spec_c2_witness :
    parse_json_safe ("```json\n" ++ "\x7b\x7d" ++ "\n```") = Except.ok (Json.obj []) ∧
    (∃ w, parse_json_safe ("Sure! Here is the result: " ++ "\x7b\x7d" ++ " Hope that helps.")
        = Except.ok w) :=
  ⟨spec_c2.2.2.1 "\x7b\x7d" (Json.obj []) (by decide) rfl,
   spec_c2.2.2.2 "Sure! Here is the result: " "\x7b\x7d" " Hope that helps." (Json.obj [])
     (by decide) (by decide) rfl rfl rfl⟩

/-- Claim C8 counterexample: on input `"hello"` both extraction attempts
fail and the raised error carries the document of the second `json.loads`
attempt — here the empty brace slice — which does not include the
original raw text. -/
theorem spec_c8_counterexample :
    errDoc (parse_json_safe "hello") = some "" ∧
    braceSub "hello" = "" ∧
    containsSub "".data "hello".data = false :=
  ⟨rfl, rfl, rfl⟩

/-- Claim C8, amended: when both extraction attempts fail the extractor
fails with the JSON error of the second attempt, whose document is the
brace-delimited slice of the original text (possibly empty) rather than
the full original text, and no partial or best-effort report is
produced; the submit handler separately displays the raw reply before
parsing. -/
theorem spec_c8_amended (txt : String)
    (h1 : jsonLoads (cleanFenced txt) = none)
    (h2 : jsonLoads (braceSub txt) = none) :
    parse_json_safe txt = Except.error (braceSub txt) ∧
    remoteReport txt = none := by
  constructor
  · simp [parse_json_safe, h1, h2]
  · simp [remoteReport, parse_json_safe, h1, h2]

theorem spec_c8_witness :
    parse_json_safe "hello" = Except.error (braceSub "hello") ∧
    remoteReport "hello" = none :=
  spec_c8_amended "hello" rfl rfl
